import Mathlib

/-
Verification of the workday-cal schedule converter.

The JavaScript sources (src/js/parser.js, src/js/calendar.js,
src/js/calendar-view.js and the main application file) are shallowly
embedded below.  Strings are modelled as lists of characters (`Str`);
JavaScript `null`/`undefined` cell values are modelled with `Option`;
absent string-valued record fields are modelled as the empty string,
which has the same truthiness as `undefined` in every use the code
makes of them.  Wall-clock reads (`Date.now()`, the DTSTAMP timestamp)
are modelled as explicit parameters.
-/

set_option maxRecDepth 4096

namespace Workday

/-- Strings are modelled as lists of characters. -/
abbrev Str := List Char

/-- Coerce a Lean string literal to the character-list model. -/
def str (s : String) : Str := s.data

/-- JavaScript `\s` whitespace (ASCII subset, sufficient for the inputs here). -/
def isWs (c : Char) : Bool :=
  c = ' ' || c = '\t' || c = '\n' || c = '\r' || c = '\x0b' || c = '\x0c'

/-- ASCII decimal digit test. -/
def isDigit (c : Char) : Bool := '0' ≤ c && c ≤ '9'

/-- ASCII uppercase letter test (the `[A-Z]` character class). -/
def isUpper (c : Char) : Bool := 'A' ≤ c && c ≤ 'Z'

/-- ASCII alphanumeric test (the `[a-zA-Z0-9]` character class). -/
def isAlnum (c : Char) : Bool :=
  isDigit c || isUpper c || ('a' ≤ c && c ≤ 'z')

/-- ASCII lower-casing of one character (`String.prototype.toLowerCase`
on the ASCII range used by this application). -/
def charLower (c : Char) : Char :=
  if isUpper c then Char.ofNat (c.toNat + 32) else c

/-- `String.prototype.toLowerCase`, ASCII range. -/
def lowerStr (s : Str) : Str := s.map charLower

/-- `String.prototype.trim` (strip leading and trailing whitespace). -/
def trimStr (s : Str) : Str :=
  ((s.dropWhile isWs).reverse.dropWhile isWs).reverse

/-- Boolean prefix test on character lists. -/
def isPrefixCL : Str → Str → Bool
  | [], _ => true
  | _ :: _, [] => false
  | c :: cs, d :: ds => c = d && isPrefixCL cs ds

/-- `String.prototype.includes`: `containsSub hay pat` is true when `pat`
occurs contiguously inside `hay`. -/
def containsSub : Str → Str → Bool
  | [], pat => pat.isEmpty
  | c :: rest, pat => isPrefixCL pat (c :: rest) || containsSub rest pat

/-- `String.prototype.split` with a one-character separator; keeps empty
fields exactly as JavaScript does. -/
def splitCh (sep : Char) : Str → List Str
  | [] => [[]]
  | c :: rest =>
    match splitCh sep rest with
    | h :: t => if c = sep then [] :: h :: t else (c :: h) :: t
    | [] => if c = sep then [[], []] else [[c]]

/-- `Array.prototype.join` with a string separator. -/
def joinSep (sep : Str) : List Str → Str
  | [] => []
  | [s] => s
  | s :: rest => s ++ sep ++ joinSep sep rest

/-- Decimal digits of a natural number (fuel-based so that it is
structurally recursive and kernel-evaluable). -/
def natDigitsAux : Nat → Nat → Str → Str
  | 0, n, acc => Char.ofNat (48 + n % 10) :: acc
  | fuel + 1, n, acc =>
    if n < 10 then Char.ofNat (48 + n) :: acc
    else natDigitsAux fuel (n / 10) (Char.ofNat (48 + n % 10) :: acc)

/-- `Number.prototype.toString` for natural numbers. -/
def natToStr (n : Nat) : Str := natDigitsAux n n []

/-- `Number.prototype.toString` for integers. -/
def intToStr (i : Int) : Str :=
  if i < 0 then '-' :: natToStr i.natAbs else natToStr i.toNat

/-- `String.prototype.padStart(2, '0')`. -/
def pad2 (s : Str) : Str :=
  if s.length ≥ 2 then s else
  if s.length = 1 then '0' :: s else ['0', '0']

/-- Numeric value of a digit run. -/
def digitsToNat : Str → Nat → Nat
  | [], acc => acc
  | c :: rest, acc => digitsToNat rest (acc * 10 + (c.toNat - 48))

/-- JavaScript `Number(...)` coercion of a string, on the decimal-integer
fragment reachable in this code base (`none` models `NaN`; fractional,
exponent and hex forms never occur in the parsed cells and are modelled
as `NaN`).  `Number("")` and whitespace-only strings give `0`. -/
def jsNumber (s : Str) : Option Int :=
  let t := trimStr s
  match t with
  | [] => some 0
  | '-' :: ds => if ds ≠ [] && ds.all isDigit then some (-(digitsToNat ds 0 : Int)) else none
  | '+' :: ds => if ds ≠ [] && ds.all isDigit then some (digitsToNat ds 0 : Int) else none
  | ds => if ds.all isDigit then some (digitsToNat ds 0 : Int) else none

/-- JavaScript `parseInt(...)`, on the decimal fragment reachable here:
skip leading whitespace, optional sign, then a maximal leading digit run
(`none` models `NaN`; radix prefixes never occur in the parsed cells). -/
def jsParseInt (s : Str) : Option Int :=
  let t := s.dropWhile isWs
  match t with
  | '-' :: ds =>
    let digits := ds.takeWhile isDigit
    if digits = [] then none else some (-(digitsToNat digits 0 : Int))
  | '+' :: ds =>
    let digits := ds.takeWhile isDigit
    if digits = [] then none else some (digitsToNat digits 0 : Int)
  | ds =>
    let digits := ds.takeWhile isDigit
    if digits = [] then none else some (digitsToNat digits 0 : Int)

/-- Maximal prefix satisfying a predicate, together with the rest. -/
def spanP (p : Char → Bool) (s : Str) : Str × Str :=
  (s.takeWhile p, s.dropWhile p)

/-- `s.replace(a, b)` with a one-character string pattern: JavaScript
replaces only the first occurrence. -/
def replaceFirstCh (a : Char) (b : Str) : Str → Str
  | [] => []
  | c :: rest => if c = a then b ++ rest else c :: replaceFirstCh a b rest

/-- `s.replace(/pat/g, b)` with a one-character pattern: global replace. -/
def replaceAllCh (a : Char) (b : Str) (s : Str) : Str :=
  s.flatMap (fun c => if c = a then b else [c])

/-! ## Data model (§3 of the spec) -/

/-- The two-letter weekday codes used throughout the application. -/
inductive Day where
  | MO | TU | WE | TH | FR | SA | SU
deriving DecidableEq, Repr

/-- The numeric weekday used by `getFirstOccurrence`'s `dayMap`
(`SU = 0`, JavaScript `Date.prototype.getDay` convention). -/
def dayNum : Day → Nat
  | .MO => 1 | .TU => 2 | .WE => 3 | .TH => 4 | .FR => 5 | .SA => 6 | .SU => 0

/-- The two-letter code of a weekday as a string. -/
def dayCode : Day → Str
  | .MO => str "MO" | .TU => str "TU" | .WE => str "WE" | .TH => str "TH"
  | .FR => str "FR" | .SA => str "SA" | .SU => str "SU"

/-- StudentInfo record (§3). -/
structure StudentInfo where
  name : Str
  id : Str
  term : Str
deriving DecidableEq, Repr

/-- Meeting record (§3).  Absent fields are the empty string, which is
falsy exactly like `undefined` in every use the code makes of them. -/
structure Meeting where
  startDate : Str
  endDate : Str
  days : List Day
  startTime : Str
  endTime : Str
  location : Str
deriving DecidableEq, Repr

/-- Course record (§3). -/
structure Course where
  student : Option StudentInfo
  code : Str
  name : Str
  «section» : Str
  credits : Str
  instructor : Str
  format : Str
  delivery : Str
  status : Str
  startDate : Str
  endDate : Str
  meetings : List Meeting
deriving DecidableEq, Repr

/-- Serializer-internal calendar event (§3). -/
structure CalendarEvent where
  uid : Str
  summary : Str
  description : Str
  location : Str
  dtstart : Option Str
  dtend : Option Str
  rrule : Option Str
  categories : Str
  status : Str
deriving DecidableEq, Repr

/-- A spreadsheet cell: `none` is the `null` placeholder for an absent
cell, `some s` the display text. -/
abbrev Cell := Option Str

/-- One grid row. -/
abbrev Row := List Cell

/-- `row[i]` with JavaScript semantics: out of bounds gives `undefined`
(modelled as `none`). -/
def cellAt (row : Row) (i : Nat) : Cell := (row.get? i).join

/-- JavaScript truthiness of a cell value (`null`, `undefined` and the
empty string are falsy). -/
def cTruthy (c : Cell) : Bool :=
  match c with
  | none => false
  | some s => !s.isEmpty

/-- `a || b` on cell values. -/
def jsOrCell (a b : Cell) : Cell := if cTruthy a then a else b

/-- `a || b || ''` on cell values, producing a string. -/
def jsOrStr (a b : Cell) : Str :=
  match jsOrCell a b with
  | some s => if s.isEmpty then [] else s
  | none => []

/-! ## WorkdayParser (src/js/parser.js)

The grid model starts at the `jsonData` boundary: a dense list of rows of
cells (`none` = absent cell, `some s` = display text), exactly what the
GridReader stage hands to the row loop. -/

/-- parser.js parseStudentInfo: the regex
`(.+?)\s*\((\d+)\)\s*-\s*(.+)` scanned left to right over the cell.
Group 1 is the text on the current line before the matched parenthesis
(the lazy `.+?` cannot cross a line break); group 3 runs to the end of
its line.  Only the trimmed captures are stored, so the captures are
computed directly in trimmed form. -/
def parseStudentInfoAux : Str → Str → Option StudentInfo
  | _, [] => none
  | acc, '(' :: rest =>
    let region := (acc.takeWhile (fun c => c ≠ '\n')).reverse
    if region ≠ [] then
      match spanP isDigit rest with
      | (ds, ')' :: r2) =>
        if ds ≠ [] then
          match r2.dropWhile isWs with
          | '-' :: r3 =>
            let g3 := (r3.dropWhile isWs).takeWhile (fun c => c ≠ '\n' && c ≠ '\r')
            if g3 ≠ [] then some ⟨trimStr region, ds, trimStr g3⟩
            else parseStudentInfoAux ('(' :: acc) rest
          | _ => parseStudentInfoAux ('(' :: acc) rest
        else parseStudentInfoAux ('(' :: acc) rest
      | _ => parseStudentInfoAux ('(' :: acc) rest
    else parseStudentInfoAux ('(' :: acc) rest
  | acc, c :: rest => parseStudentInfoAux (c :: acc) rest

/-- parser.js parseStudentInfo. -/
def parseStudentInfo (text : Str) : Option StudentInfo :=
  parseStudentInfoAux [] text

/-- The regex `([^(]+)\((\d+)\)` used by parseExcel's row loop, scanned
left to right: a nonempty run of non-parenthesis characters, an opening
parenthesis, a nonempty digit run, a closing parenthesis.  Returns the
two captures. -/
def studentScanAux : Str → Str → Option (Str × Str)
  | _, [] => none
  | acc, '(' :: rest =>
    if acc ≠ [] then
      match spanP isDigit rest with
      | (ds, ')' :: _) =>
        if ds ≠ [] then some (acc.reverse, ds) else studentScanAux [] rest
      | _ => studentScanAux [] rest
    else studentScanAux [] rest
  | acc, c :: rest => studentScanAux (c :: acc) rest

/-- parser.js validateHeaders: the fixed critical-term set. -/
def criticalHeaders : List Str := [str "Drop", str "Credits", str "Grading"]

/-- parser.js validateHeaders. -/
def validateHeaders (headers : Row) : Bool :=
  if headers.length < 5 then false
  else
    let headerString :=
      lowerStr (joinSep (str " ") ((headers.filterMap id).filter (fun s => !s.isEmpty)))
    criticalHeaders.all (fun h => containsSub headerString (lowerStr h))

/-- parser.js parseDays: the fixed weekday table, in insertion order. -/
def dayPairs : List (Str × Day) :=
  [(str "Mon", .MO), (str "Tue", .TU), (str "Wed", .WE), (str "Thu", .TH),
   (str "Fri", .FR), (str "Sat", .SA), (str "Sun", .SU)]

/-- parser.js parseDays. -/
def parseDays (daysStr : Str) : List Day :=
  if daysStr = [] then []
  else dayPairs.filterMap (fun p => if containsSub daysStr p.1 then some p.2 else none)

/-- Rendering of a possibly-NaN number (`none` = `NaN`). -/
def numRender (o : Option Int) : Str :=
  match o with
  | some i => intToStr i
  | none => str "NaN"

/-- parser.js convertTo24Hour.  The callers always pass an `H:MM` time,
so both split components exist; a missing component is rendered as NaN
(in JavaScript a missing minutes component would throw — unreachable
from parseMeetingPatterns). -/
def convertTo24Hour (time period : Str) : Str :=
  let comps := (splitCh ':' time).map jsNumber
  let hours : Option Int := (comps.get? 0).join
  let minutes : Option Int := (comps.get? 1).join
  let hour24 : Option Int :=
    if containsSub period (str "p.m.") && decide (hours ≠ some 12) then hours.map (· + 12)
    else if containsSub period (str "a.m.") && decide (hours = some 12) then some 0
    else hours
  pad2 (numRender hour24) ++ str ":" ++ pad2 (numRender minutes)

/-- `s.replace(/TOK\s*/g, rep)` for a literal token: every occurrence of
the token plus the following whitespace run is replaced; scanning
resumes after the consumed text (fuel = input length). -/
def replaceTokWsAux (tok rep : Str) : Nat → Str → Str
  | 0, s => s
  | _ + 1, [] => []
  | fuel + 1, c :: rest =>
    if isPrefixCL tok (c :: rest) then
      rep ++ replaceTokWsAux tok rep fuel ((List.drop tok.length (c :: rest)).dropWhile isWs)
    else c :: replaceTokWsAux tok rep fuel rest

/-- `s.replace(/TOK\s*/g, rep)` for a literal token. -/
def replaceTokWs (tok rep s : Str) : Str := replaceTokWsAux tok rep s.length s

/-- `s.replace(/\s+/g, ' ')`: collapse whitespace runs to single spaces. -/
def collapseWs : Str → Str
  | [] => []
  | [c] => if isWs c then [' '] else [c]
  | c :: c2 :: rest =>
    if isWs c then
      if isWs c2 then collapseWs (c2 :: rest) else ' ' :: collapseWs (c2 :: rest)
    else c :: collapseWs (c2 :: rest)

/-- parser.js parseLocation. -/
def parseLocation (locationStr : Str) : Str :=
  if locationStr = [] then []
  else
    trimStr (collapseWs (replaceTokWs (str "Room:") (str "Room ")
      (replaceTokWs (str "Floor:") (str "Floor ") locationStr)))

/-- One attempt of `\d{4}-\d{2}-\d{2}` at the current position: the
matched ten characters and the rest. -/
def tryDate : Str → Option (Str × Str)
  | a :: b :: c :: d :: '-' :: e :: f :: '-' :: g :: h :: rest =>
    if isDigit a && isDigit b && isDigit c && isDigit d &&
       isDigit e && isDigit f && isDigit g && isDigit h then
      some ([a, b, c, d, '-', e, f, '-', g, h], rest)
    else none
  | _ => none

/-- One attempt of the date-range regex
`(\d{4}-\d{2}-\d{2})\s*-\s*(\d{4}-\d{2}-\d{2})` at the current position:
the two captured dates. -/
def tryDateRange (l : Str) : Option (Str × Str) :=
  match tryDate l with
  | some (d1, r1) =>
    match r1.dropWhile isWs with
    | '-' :: r2 =>
      match tryDate (r2.dropWhile isWs) with
      | some (d2, _) => some (d1, d2)
      | none => none
    | _ => none
  | none => none

/-- One-digit-hour attempt of `\d{1,2}:\d{2}`. -/
def tryTime1 : Str → Option (Str × Str)
  | a :: ':' :: c :: d :: rest =>
    if isDigit a && isDigit c && isDigit d then some ([a, ':', c, d], rest) else none
  | _ => none

/-- One attempt of `\d{1,2}:\d{2}` at the current position (the greedy
two-digit hour is preferred; the one-digit alternative can only succeed
when the two-digit one fails). -/
def tryTime (l : Str) : Option (Str × Str) :=
  match l with
  | a :: b :: ':' :: c :: d :: rest =>
    if isDigit a && isDigit b && isDigit c && isDigit d then some ([a, b, ':', c, d], rest)
    else tryTime1 l
  | _ => tryTime1 l

/-- One attempt of the literal alternative `(a\.m\.|p\.m\.)`. -/
def tryMarker : Str → Option (Str × Str)
  | 'a' :: '.' :: 'm' :: '.' :: rest => some (str "a.m.", rest)
  | 'p' :: '.' :: 'm' :: '.' :: rest => some (str "p.m.", rest)
  | _ => none

/-- One attempt of the time-range regex
`(\d{1,2}:\d{2})\s*(a\.m\.|p\.m\.)\s*-\s*(\d{1,2}:\d{2})\s*(a\.m\.|p\.m\.)`
at the current position: the four captures. -/
def tryTimeRange (l : Str) : Option (Str × Str × Str × Str) :=
  match tryTime l with
  | some (t1, r1) =>
    match tryMarker (r1.dropWhile isWs) with
    | some (p1, r2) =>
      match r2.dropWhile isWs with
      | '-' :: r3 =>
        match tryTime (r3.dropWhile isWs) with
        | some (t2, r4) =>
          match tryMarker (r4.dropWhile isWs) with
          | some (p2, _) => some (t1, p1, t2, p2)
          | none => none
        | none => none
      | _ => none
    | none => none
  | none => none

/-- Leftmost regex search: try the attempt at every position, leftmost
first (`String.prototype.match` semantics for these patterns). -/
def scanFor {α : Type} (f : Str → Option α) : Str → Option α
  | [] => none
  | c :: rest =>
    match f (c :: rest) with
    | some r => some r
    | none => scanFor f rest

/-- The per-line body of parser.js parseMeetingPatterns (factored out of
the loop for reuse in theorem statements): split on pipes, trim parts,
and require a date-range match in part 0 and a time-range match in
part 2. -/
def parseMeetingLine (line : Str) : Option Meeting :=
  match (splitCh '|' line).map trimStr with
  | dateRange :: days :: timeRange :: rest =>
    match scanFor tryDateRange dateRange, scanFor tryTimeRange timeRange with
    | some (sd, ed), some (t1, p1, t2, p2) =>
      some { startDate := sd, endDate := ed, days := parseDays days,
             startTime := convertTo24Hour t1 p1, endTime := convertTo24Hour t2 p2,
             location := parseLocation (joinSep (str " | ") rest) }
    | _, _ => none
  | _ => none

/-- The `for (const line of lines)` loop of parseMeetingPatterns. -/
def parseMeetingsLoop : List Str → List Meeting
  | [] => []
  | line :: rest =>
    match parseMeetingLine line with
    | some m => m :: parseMeetingsLoop rest
    | none => parseMeetingsLoop rest

/-- parser.js parseMeetingPatterns. -/
def parseMeetingPatterns (pattern : Str) : List Meeting :=
  if pattern = [] then []
  else parseMeetingsLoop ((splitCh '\n' pattern).filter (fun l => !(trimStr l).isEmpty))

/-- parser.js parseDate.  The `Date`-instance branch cannot occur in the
grid model (cells are display text) and the trailing `new Date(dateStr)`
fallback for non-ISO strings is modelled as unparseable: no claim
depends on it and the grids handled here carry ISO dates. -/
def parseDate (dateStr : Cell) : Option Str :=
  match dateStr with
  | none => none
  | some s =>
    if s.isEmpty then none
    else if (tryDate s).isSome then some (s.takeWhile (fun c => c ≠ ' '))
    else none

/-- The en/em/hyphen dash class `[-–—]` of the course-listing regex. -/
def isDash (c : Char) : Bool := c = '-' || c = '–' || c = '—'

/-- One attempt of the course-listing regex
`([A-Z]+)_V\s+(\d+)\s*[-–—]\s*(.+)` at the current position.  The title
capture runs to the end of its line; a title consisting solely of
whitespace is modelled as no match (in JavaScript such a match would
yield an empty name after trimming — unreachable for real listings). -/
def tryCourse (l : Str) : Option (Str × Str × Str) :=
  match spanP isUpper l with
  | (ls, r1) =>
    if ls = [] then none else
    match r1 with
    | '_' :: 'V' :: r2 =>
      match spanP isWs r2 with
      | (ws, r3) =>
        if ws = [] then none else
        match spanP isDigit r3 with
        | (ds, r4) =>
          if ds = [] then none else
          match r4.dropWhile isWs with
          | c :: r5 =>
            if isDash c then
              let title := (r5.dropWhile isWs).takeWhile (fun ch => ch ≠ '\n' && ch ≠ '\r')
              if title = [] then none else some (ls, ds, title)
            else none
          | [] => none
    | _ => none

/-- Column lookup through parseCourseRow's `columnMap` (later headers
with the same trimmed text overwrite earlier ones). -/
def colIdx (headers : Row) (name : Str) : Option Nat :=
  (headers.enum.filterMap (fun p =>
    match p.2 with
    | some s =>
      if !s.isEmpty && !(trimStr s).isEmpty && trimStr s = name then some p.1 else none
    | none => none)).getLast?

/-- `row[columnMap[name]]` (an absent map entry indexes with `undefined`,
which reads as `undefined`). -/
def cellAtOpt (row : Row) (i : Option Nat) : Cell :=
  match i with
  | some j => cellAt row j
  | none => none

/-- parser.js parseCourseRow. -/
def parseCourseRow (row : Row) (headers : Row) (studentInfo : Option StudentInfo) : Course :=
  let student :=
    match cellAt row 0 with
    | some s =>
      if !s.isEmpty && containsSub s (str " - ") && containsSub s (str "(") then
        match studentInfo with
        | none => parseStudentInfo s
        | some st => some st
      else studentInfo
    | none => studentInfo
  let codeName :=
    match cellAt row 1 with
    | some s =>
      if s.isEmpty then ([], [])
      else
        match scanFor tryCourse (trimStr s) with
        | some (ls, ds, title) => (ls ++ str " " ++ ds, trimStr title)
        | none => (([] : Str), ([] : Str))
    | none => ([], [])
  let mp := jsOrStr (cellAt row 10) (cellAtOpt row (colIdx headers (str "Meeting Patterns")))
  let sdRaw := jsOrCell (cellAt row 12) (cellAtOpt row (colIdx headers (str "Start Date")))
  let edRaw := jsOrCell (cellAt row 13) (cellAtOpt row (colIdx headers (str "End Date")))
  { student := student
    code := codeName.1
    name := codeName.2
    credits := jsOrStr (cellAt row 4) (cellAtOpt row (colIdx headers (str "Credits")))
    «section» := jsOrStr (cellAt row 6) (cellAtOpt row (colIdx headers (str "Section")))
    status := jsOrStr (cellAt row 7) (cellAtOpt row (colIdx headers (str "Registration Status")))
    format := jsOrStr (cellAt row 8) (cellAtOpt row (colIdx headers (str "Instructional Format")))
    delivery := jsOrStr (cellAt row 9) (cellAtOpt row (colIdx headers (str "Delivery Mode")))
    instructor := jsOrStr (cellAt row 11) (cellAtOpt row (colIdx headers (str "Instructor")))
    meetings := if mp.isEmpty then [] else parseMeetingPatterns mp
    startDate := if cTruthy sdRaw then (parseDate sdRaw).getD [] else []
    endDate := if cTruthy edRaw then (parseDate edRaw).getD [] else [] }

/-- The student-context update performed by parseExcel's row loop: when
the first cell is truthy and contains both parentheses and the regex
`([^(]+)\((\d+)\)` matches, a fresh StudentInfo is built whose term is
the fixed string "Current Term". -/
def labelStudent (row : Row) : Option StudentInfo :=
  match cellAt row 0 with
  | some s =>
    if !s.isEmpty && containsSub s (str "(") && containsSub s (str ")") then
      match studentScanAux [] s with
      | some (n, d) => some ⟨trimStr n, d, str "Current Term"⟩
      | none => none
    else none
  | none => none

/-- `currentStudent` after seeing one row. -/
def updateStudent (cur : Option StudentInfo) (row : Row) : Option StudentInfo :=
  match labelStudent row with
  | some st => some st
  | none => cur

/-- The courses contributed by one row of parseExcel's loop (the row is
recognised as course data only if the cell at index 1 is truthy and
contains the sentinel `"_V "`, and the parsed course has a nonempty
code). -/
def rowCourses (headers : Row) (student : Option StudentInfo) (row : Row) : List Course :=
  match cellAt row 1 with
  | some s =>
    if !s.isEmpty && containsSub s (str "_V ") then
      if (parseCourseRow row headers student).code ≠ [] then
        [parseCourseRow row headers student]
      else []
    else []
  | none => []

/-- parseExcel's row loop, threading the propagated student context. -/
def processRows (headers : Row) : Option StudentInfo → List Row → List Course
  | _, [] => []
  | cur, row :: rest =>
    if row = [] then processRows headers cur rest
    else
      let cur' := updateStudent cur row
      rowCourses headers cur' row ++ processRows headers cur' rest

/-- Data rows start at (1-indexed) row 7. -/
def dataStartRow : Nat := 7

/-- The header row is (1-indexed) row 6. -/
def headerRow : Nat := 6

/-- parser.js parseExcel, from the `jsonData` grid onwards (the XLSX
byte decoding of the GridReader stage is outside the model). -/
def parseExcel (jsonData : List Row) : Except Str (List Course) :=
  if jsonData.length < dataStartRow then
    .error (str "Invalid file format: insufficient data rows")
  else
    let headers := (jsonData.get? (headerRow - 1)).getD []
    if !validateHeaders headers then
      .error (str "Invalid file format: expected UBC Workday course schedule format")
    else
      .ok (processRows headers none (jsonData.drop (dataStartRow - 1)))

/-! ## CalendarGenerator (src/js/calendar.js)

JavaScript `Date` objects constructed from local calendar components and
read back as local calendar components are modelled as days since
1970-01-01 (the code never mixes in a time of day).  The wall-clock
reads `Date.now()` (used by generateUID) and the DTSTAMP timestamp are
modelled as explicit parameters of the serialization. -/

/-- Days since 1970-01-01 of a proleptic Gregorian civil date
(Howard Hinnant's `days_from_civil`). -/
def civilToDays (y m d : Int) : Int :=
  let y1 := if m ≤ 2 then y - 1 else y
  let era := y1.fdiv 400
  let yoe := y1 - era * 400
  let mp := (m + 9) % 12
  let doy := (153 * mp + 2).fdiv 5 + d - 1
  let doe := yoe * 365 + yoe.fdiv 4 - yoe.fdiv 100 + doy
  era * 146097 + doe - 719468

/-- Civil date (year, month, day) of a days-since-epoch count
(Howard Hinnant's `civil_from_days`). -/
def daysToCivil (z : Int) : Int × Int × Int :=
  let z1 := z + 719468
  let era := z1.fdiv 146097
  let doe := z1 - era * 146097
  let yoe := (doe - doe.fdiv 1460 + doe.fdiv 36524 - doe.fdiv 146096).fdiv 365
  let y := yoe + era * 400
  let doy := doe - (365 * yoe + yoe.fdiv 4 - yoe.fdiv 100)
  let mp := (5 * doy + 2).fdiv 153
  let d := doy - (153 * mp + 2).fdiv 5 + 1
  let m := if mp < 10 then mp + 3 else mp - 9
  (if m ≤ 2 then y + 1 else y, m, d)

/-- `new Date(year, monthIndex, day)` normalised to days since epoch:
the month index rolls over into the year and the day offsets from the
first of the month. -/
def jsMakeDate (y mIdx d : Int) : Int :=
  civilToDays (y + mIdx.fdiv 12) (mIdx % 12 + 1) 1 + (d - 1)

/-- `Date.prototype.getDay` (0 = Sunday; 1970-01-01 was a Thursday). -/
def jsGetDay (z : Int) : Int := (z + 4) % 7

/-- calendar.js formatDate: `YYYYMMDD` from local date components. -/
def formatDate (z : Int) : Str :=
  match daysToCivil z with
  | (y, m, d) => intToStr y ++ pad2 (intToStr m) ++ pad2 (intToStr d)

/-- Insertion of a number into a sorted list (ascending). -/
def insertSorted (x : Nat) : List Nat → List Nat
  | [] => [x]
  | y :: ys => if x ≤ y then x :: y :: ys else y :: insertSorted x ys

/-- `array.sort((a, b) => a - b)`: ascending numeric sort. -/
def sortNats : List Nat → List Nat
  | [] => []
  | x :: xs => insertSorted x (sortNats xs)

/-- The forward distance `(targetDay - startDayOfWeek + 7) % 7` of the
getFirstOccurrence loop. -/
def dayDiff (sd : Int) (t : Nat) : Int := ((t : Int) - sd + 7) % 7

/-- The `daysToAdd` loop of getFirstOccurrence: for each target weekday
in ascending order compute the forward distance `diff`; stop with 0 on
an exact hit, otherwise keep the minimum (the `acc = 0` test re-seeds
the accumulator on the first non-zero distance). -/
def firstOccLoop : List Nat → Int → Int → Int
  | [], _, acc => acc
  | t :: ts, sd, acc =>
    if dayDiff sd t = 0 || sd = (t : Int) then 0
    else if acc = 0 || dayDiff sd t < acc then firstOccLoop ts sd (dayDiff sd t)
    else firstOccLoop ts sd acc

/-- calendar.js getFirstOccurrence.  When the date components fail to
parse as numbers the JavaScript `Date` is invalid and every comparison
against `NaN` is false, so `daysToAdd` ends up `NaN` and formatDate
renders the three `NaN` components. -/
def getFirstOccurrence (startDate : Str) (days : List Day) (time : Str) : Option Str :=
  if startDate = [] || days = [] || time = [] then none
  else
    let comps := (splitCh '-' startDate).map jsNumber
    let timeStr := replaceFirstCh ':' [] time
    match (comps.get? 0).join, (comps.get? 1).join, (comps.get? 2).join with
    | some y, some m, some d =>
      let baseDate := jsMakeDate y (m - 1) d
      let startDayOfWeek := jsGetDay baseDate
      let targetDays := sortNats (days.map dayNum)
      let daysToAdd := firstOccLoop targetDays startDayOfWeek 0
      let firstDate := baseDate + daysToAdd
      some (formatDate firstDate ++ str "T" ++ timeStr ++ str "00")
    | _, _, _ => some (str "NaNNaNNaN" ++ str "T" ++ timeStr ++ str "00")

/-- calendar.js buildDescription: note the JavaScript join separator is
the literal two-character sequence backslash-n (`'\\n'`), not a newline. -/
def buildDescription (course : Course) : Str :=
  let lines : List Str :=
    (if course.name ≠ [] then [str "Course: " ++ course.code ++ str " - " ++ course.name] else []) ++
    (if course.«section» ≠ [] then [str "Section: " ++ course.«section»] else []) ++
    (if course.instructor ≠ [] then [str "Instructor: " ++ course.instructor] else []) ++
    (if course.credits ≠ [] then [str "Credits: " ++ course.credits] else []) ++
    (if course.format ≠ [] then [str "Format: " ++ course.format] else []) ++
    (if course.delivery ≠ [] then [str "Delivery: " ++ course.delivery] else []) ++
    (if course.status ≠ [] then [str "Status: " ++ course.status] else [])
  joinSep (str "\\n") lines

/-- calendar.js buildRRule. -/
def buildRRule (meeting : Meeting) : Option Str :=
  if meeting.endDate = [] || meeting.days = [] then none
  else
    let until_ := (meeting.endDate.filter (fun c => c ≠ '-')) ++ str "T235959"
    let byDay := joinSep (str ",") (meeting.days.map dayCode)
    some (str "FREQ=WEEKLY;UNTIL=" ++ until_ ++ str ";BYDAY=" ++ byDay)

/-- The content-derived part of a UID: course code without whitespace,
a dash, and the alphanumeric characters of `startDate-<day codes>`. -/
def uidPrefix (course : Course) (meeting : Meeting) : Str :=
  (course.code.filter (fun c => !isWs c)) ++ str "-" ++
    ((meeting.startDate ++ str "-" ++ (meeting.days.map dayCode).flatten).filter isAlnum)

/-- calendar.js generateUID; `Date.now()` is the `nowMs` parameter. -/
def generateUID (nowMs : Nat) (course : Course) (meeting : Meeting) : Str :=
  uidPrefix course meeting ++ str "-" ++ natToStr nowMs ++ str "@workday-cal"

/-- `course.format || 'Lecture'`. -/
def jsOrDefault (s d : Str) : Str := if s = [] then d else s

/-- The event object built by createRecurringEvents (factored out of the
guard for reuse in theorem statements). -/
def courseEvent (nowMs : Nat) (course : Course) (meeting : Meeting) : CalendarEvent :=
  { uid := generateUID nowMs course meeting
    summary := course.code ++ str " - " ++ course.name
    description := buildDescription course
    location := meeting.location
    dtstart := getFirstOccurrence meeting.startDate meeting.days meeting.startTime
    dtend := getFirstOccurrence meeting.startDate meeting.days meeting.endTime
    rrule := buildRRule meeting
    categories := jsOrDefault course.format (str "Lecture")
    status := str "CONFIRMED" }

/-- calendar.js createRecurringEvents. -/
def createRecurringEvents (nowMs : Nat) (course : Course) (meeting : Meeting) :
    List CalendarEvent :=
  if meeting.days = [] then []
  else [courseEvent nowMs course meeting]

/-- calendar.js escapeText (RFC 5545 escaping, applied in source order:
backslash, semicolon, comma, newline, carriage-return strip). -/
def escapeText (text : Str) : Str :=
  if text = [] then []
  else
    replaceAllCh '\r' []
      (replaceAllCh '\n' (str "\\n")
        (replaceAllCh ',' (str "\\,")
          (replaceAllCh ';' (str "\\;")
            (replaceAllCh '\\' (str "\\\\") text))))

/-- The fixed calendar header lines of buildICSContent (product data and
the hard-coded VTIMEZONE block). -/
def icsHeader : List Str :=
  [str "BEGIN:VCALENDAR",
   str "VERSION:2.0",
   str "PRODID:-//UBC Workday Calendar Converter//EN",
   str "CALSCALE:GREGORIAN",
   str "METHOD:PUBLISH",
   str "X-WR-CALNAME:UBC Course Schedule",
   str "X-WR-CALDESC:Course schedule imported from UBC Workday",
   str "X-WR-TIMEZONE:America/Vancouver",
   str "BEGIN:VTIMEZONE",
   str "TZID:America/Vancouver",
   str "BEGIN:DAYLIGHT",
   str "TZOFFSETFROM:-0800",
   str "TZOFFSETTO:-0700",
   str "TZNAME:PDT",
   str "DTSTART:20250309T020000",
   str "RRULE:FREQ=YEARLY;BYMONTH=3;BYDAY=2SU",
   str "END:DAYLIGHT",
   str "BEGIN:STANDARD",
   str "TZOFFSETFROM:-0700",
   str "TZOFFSETTO:-0800",
   str "TZNAME:PST",
   str "DTSTART:20251102T020000",
   str "RRULE:FREQ=YEARLY;BYMONTH=11;BYDAY=1SU",
   str "END:STANDARD",
   str "END:VTIMEZONE"]

/-- The VEVENT block emitted for one surviving event (`tsStr` is the
DTSTAMP value, a wall-clock read modelled as a parameter).  Events
missing `dtstart` or `dtend` are skipped by the caller. -/
def eventLines (tsStr : Str) (e : CalendarEvent) : List Str :=
  match e.dtstart, e.dtend with
  | some ds, some de =>
    [str "BEGIN:VEVENT",
     str "UID:" ++ e.uid,
     str "DTSTAMP:" ++ tsStr,
     str "DTSTART;TZID=America/Vancouver:" ++ ds,
     str "DTEND;TZID=America/Vancouver:" ++ de] ++
    (match e.rrule with
     | some r => [str "RRULE:" ++ r]
     | none => []) ++
    [str "SUMMARY:" ++ escapeText e.summary] ++
    (if e.description ≠ [] then [str "DESCRIPTION:" ++ escapeText e.description] else []) ++
    (if e.location ≠ [] then [str "LOCATION:" ++ escapeText e.location] else []) ++
    (if e.categories ≠ [] then [str "CATEGORIES:" ++ e.categories] else []) ++
    [str "STATUS:" ++ jsOrDefault e.status (str "CONFIRMED"),
     str "END:VEVENT"]
  | _, _ => []

/-- calendar.js buildICSContent, as its list of lines. -/
def buildICSLines (tsStr : Str) (events : List CalendarEvent) : List Str :=
  icsHeader ++ events.flatMap (eventLines tsStr) ++ [str "END:VCALENDAR"]

/-- calendar.js buildICSContent (lines joined with CRLF). -/
def buildICSContent (tsStr : Str) (events : List CalendarEvent) : Str :=
  joinSep (str "\r\n") (buildICSLines tsStr events)

/-- The event list accumulated by generateICS. -/
def allEvents (nowMs : Nat) (courses : List Course) : List CalendarEvent :=
  courses.flatMap (fun c => c.meetings.flatMap (createRecurringEvents nowMs c))

/-- calendar.js generateICS, as its list of lines. -/
def generateICSLines (nowMs : Nat) (tsStr : Str) (courses : List Course) : List Str :=
  buildICSLines tsStr (allEvents nowMs courses)

/-- calendar.js generateICS. -/
def generateICS (nowMs : Nat) (tsStr : Str) (courses : List Course) : Str :=
  buildICSContent tsStr (allEvents nowMs courses)

/-! ## determineTerm — the two classifier call sites

The list-display classifier lives in the main application file
(`WorkdayCalendarApp.determineTerm`) and the calendar-grid classifier in
src/js/calendar-view.js (`CalendarView.determineTerm`); the source
duplicates the month cascade at both sites, and the embedding mirrors
that duplication. -/

/-- `parseInt(dateStr.split('-')[1])` (a missing component parses as
`NaN`, modelled `none`). -/
def monthOf (s : Str) : Option Int :=
  match (splitCh '-' s).get? 1 with
  | some comp => jsParseInt comp
  | none => none

/-- `NaN`-aware `≥`: any comparison against a failed parse is false. -/
def optGE (o : Option Int) (k : Int) : Bool :=
  match o with
  | some v => decide (k ≤ v)
  | none => false

/-- `NaN`-aware `≤`. -/
def optLE (o : Option Int) (k : Int) : Bool :=
  match o with
  | some v => decide (v ≤ k)
  | none => false

/-- The six-branch start/end month cascade that appears verbatim in both
determineTerm implementations. -/
def monthCascade (sm em : Option Int) : Option Str :=
  if optGE sm 9 && optGE em 3 && optLE em 4 then some (str "Winter Full Year")
  else if optGE sm 9 && optLE em 12 then some (str "Winter Term 1")
  else if optGE sm 1 && optLE sm 4 && optLE em 4 then some (str "Winter Term 2")
  else if optGE sm 5 && optLE sm 6 && optLE em 6 then some (str "Summer Term 1")
  else if optGE sm 7 && optLE sm 8 then some (str "Summer Term 2")
  else if optGE sm 5 && optGE em 7 then some (str "Summer Full Term")
  else none

/-- Step 1 of the list-display determineTerm: textual patterns over the
student's term, including the full-year forms and the bare
`term 1`/`term 2` fallbacks. -/
def appStep1 (c : Course) : Option Str :=
  match c.student with
  | some st =>
    if st.term ≠ [] then
      let termInfo := lowerStr st.term
      if containsSub termInfo (str "full year") || containsSub termInfo (str "year long") then
        some (str "Winter Full Year")
      else if containsSub termInfo (str "winter") && containsSub termInfo (str "term 1") then
        some (str "Winter Term 1")
      else if containsSub termInfo (str "winter") && containsSub termInfo (str "term 2") then
        some (str "Winter Term 2")
      else if containsSub termInfo (str "summer") && containsSub termInfo (str "term 1") then
        some (str "Summer Term 1")
      else if containsSub termInfo (str "summer") && containsSub termInfo (str "term 2") then
        some (str "Summer Term 2")
      else if containsSub termInfo (str "term 1") then some (str "Winter Term 1")
      else if containsSub termInfo (str "term 2") then some (str "Winter Term 2")
      else none
    else none
  | none => none

/-- Step 2 of the list-display determineTerm: course-level dates. -/
def appStep2 (c : Course) : Option Str :=
  if c.startDate ≠ [] && c.endDate ≠ [] then
    monthCascade (monthOf c.startDate) (monthOf c.endDate)
  else none

/-- Step 3 of the list-display determineTerm: first Meeting's dates. -/
def appStep3 (c : Course) : Option Str :=
  match c.meetings with
  | [] => none
  | fm :: _ =>
    if fm.startDate ≠ [] && fm.endDate ≠ [] then
      monthCascade (monthOf fm.startDate) (monthOf fm.endDate)
    else none

/-- The list-display determineTerm (main application file). -/
def appDetermineTerm (c : Course) : Str :=
  match appStep1 c with
  | some t => t
  | none =>
    match appStep2 c with
    | some t => t
    | none =>
      match appStep3 c with
      | some t => t
      | none => str "Other"

/-- Step 1 of the calendar-grid determineTerm (calendar-view.js): only
the four explicit winter/summer patterns. -/
def viewStep1 (c : Course) : Option Str :=
  match c.student with
  | some st =>
    if st.term ≠ [] then
      let termInfo := lowerStr st.term
      if containsSub termInfo (str "winter") && containsSub termInfo (str "term 1") then
        some (str "Winter Term 1")
      else if containsSub termInfo (str "winter") && containsSub termInfo (str "term 2") then
        some (str "Winter Term 2")
      else if containsSub termInfo (str "summer") && containsSub termInfo (str "term 1") then
        some (str "Summer Term 1")
      else if containsSub termInfo (str "summer") && containsSub termInfo (str "term 2") then
        some (str "Summer Term 2")
      else none
    else none
  | none => none

/-- Step 2 of the calendar-grid determineTerm: course-level dates. -/
def viewStep2 (c : Course) : Option Str :=
  if c.startDate ≠ [] && c.endDate ≠ [] then
    monthCascade (monthOf c.startDate) (monthOf c.endDate)
  else none

/-- Step 3 of the calendar-grid determineTerm: first Meeting's start
month only. -/
def viewStep3 (c : Course) : Option Str :=
  match c.meetings with
  | [] => none
  | fm :: _ =>
    if fm.startDate ≠ [] then
      let sm := monthOf fm.startDate
      if optGE sm 9 then some (str "Winter Term 1")
      else if optLE sm 4 then some (str "Winter Term 2")
      else if optGE sm 5 && optLE sm 6 then some (str "Summer Term 1")
      else if optGE sm 7 && optLE sm 8 then some (str "Summer Term 2")
      else none
    else none

/-- The calendar-grid determineTerm (calendar-view.js). -/
def viewDetermineTerm (c : Course) : Str :=
  match viewStep1 c with
  | some t => t
  | none =>
    match viewStep2 c with
    | some t => t
    | none =>
      match viewStep3 c with
      | some t => t
      | none => str "Other"

/-! ## Definitions written from the claims (spec side) -/

/-- C1 (amended predicate): a Meeting yields a VEVENT exactly when it
has a non-empty day set, a start date, a start time and an end time. -/
def emitsEvent (m : Meeting) : Bool :=
  !m.days.isEmpty && !m.startDate.isEmpty && !m.startTime.isEmpty && !m.endTime.isEmpty

/-- C1: the count of `BEGIN:VEVENT` lines in an ICS line list (each
VEVENT block contributes exactly one such content line). -/
def countBeginVevent : List Str → Nat
  | [] => 0
  | l :: rest => (if l = str "BEGIN:VEVENT" then 1 else 0) + countBeginVevent rest

/-- C1 (claim predicate as stated): a Meeting with a non-empty day set
and a valid (present) end date. -/
def claimCounted (m : Meeting) : Bool :=
  !m.days.isEmpty && !m.endDate.isEmpty

/-- C4 (claim side): every one of `drop`, `credits`, `grading` occurs in
the lower-cased space-separated concatenation of all non-null header
cells. -/
def claimHeaderCond (headers : Row) : Bool :=
  let joined := lowerStr (joinSep (str " ") (headers.filterMap id))
  [str "drop", str "credits", str "grading"].all (containsSub joined)

/-- C6 (claim side): the first matching label of the claimed cascade
over start/end month numbers (start≥9 ∧ end∈[3,4] → Winter Full Year;
start≥9 ∧ end≤12 → Winter Term 1; start∈[1,4] ∧ end≤4 → Winter Term 2;
start∈[5,6] ∧ end≤6 → Summer Term 1; start∈[7,8] → Summer Term 2;
start∈[5,6] ∧ end≥7 → Summer Full Term). -/
def claimTermCascade (sm em : Int) : Option Str :=
  if 9 ≤ sm ∧ 3 ≤ em ∧ em ≤ 4 then some (str "Winter Full Year")
  else if 9 ≤ sm ∧ em ≤ 12 then some (str "Winter Term 1")
  else if 1 ≤ sm ∧ sm ≤ 4 ∧ em ≤ 4 then some (str "Winter Term 2")
  else if 5 ≤ sm ∧ sm ≤ 6 ∧ em ≤ 6 then some (str "Summer Term 1")
  else if 7 ≤ sm ∧ sm ≤ 8 then some (str "Summer Term 2")
  else if 5 ≤ sm ∧ sm ≤ 6 ∧ 7 ≤ em then some (str "Summer Full Term")
  else none

/-- C2 (claim side): `z` is the first epoch day on or after `base` whose
weekday belongs to the weekday set `days`. -/
def firstOnOrAfter (base : Int) (days : List Day) (z : Int) : Prop :=
  base ≤ z ∧ (∃ dy ∈ days, jsGetDay z = (dayNum dy : Int)) ∧
    ∀ w : Int, base ≤ w → w < z → ∀ dy ∈ days, jsGetDay w ≠ (dayNum dy : Int)

/-- C7 (amended side): the content-derived UID prefixes of the Meetings
that yield emitted events, in emission order. -/
def emittedPrefixes (courses : List Course) : List Str :=
  courses.flatMap (fun c => (c.meetings.filter emitsEvent).map (uidPrefix c))

/-- C7: the UID values of the emitted VEVENTs of one generated document. -/
def icsUIDs (nowMs : Nat) (courses : List Course) : List Str :=
  ((allEvents nowMs courses).filter
    (fun e => e.dtstart.isSome && e.dtend.isSome)).map (fun e => e.uid)

/-! ## Helper lemmas -/

theorem parseMeetingsLoop_eq_filterMap (lines : List Str) :
    parseMeetingsLoop lines = lines.filterMap parseMeetingLine := by
  induction lines with
  | nil => rfl
  | cons line rest ih =>
    simp only [parseMeetingsLoop, List.filterMap_cons]
    cases parseMeetingLine line <;> simp [ih]

/-! ## C9 -/

/-- C9 (confirmed): convertTo24Hour maps hour 12 to 00 for a.m., keeps
12 for p.m., adds 12 to other p.m. hours, keeps other a.m. hours, and
always returns the zero-padded `HH:MM` string. -/
theorem convertTo24Hour_mapping (h m : Nat) (period : Str)
    (hh1 : 1 ≤ h) (hh2 : h ≤ 12) (hm : m < 60)
    (hp : period = str "a.m." ∨ period = str "p.m.") :
    convertTo24Hour (natToStr h ++ str ":" ++ pad2 (natToStr m)) period =
      pad2 (natToStr (if period = str "p.m." then (if h = 12 then 12 else h + 12)
                      else if h = 12 then 0 else h)) ++ str ":" ++ pad2 (natToStr m) := by
  have key : ∀ p : Str, p = str "a.m." ∨ p = str "p.m." →
      ∀ h2 : Nat, h2 < 13 → ∀ m2 : Nat, m2 < 60 → 1 ≤ h2 →
      convertTo24Hour (natToStr h2 ++ str ":" ++ pad2 (natToStr m2)) p =
        pad2 (natToStr (if p = str "p.m." then (if h2 = 12 then 12 else h2 + 12)
                        else if h2 = 12 then 0 else h2)) ++ str ":" ++ pad2 (natToStr m2) := by
    rintro p (rfl | rfl) <;> decide
  exact key period hp h (by omega) m hm hh1

/-- C9 witness: the four documented instances, the first obtained by
instantiating the mapping theorem at hour 9, minute 30, a.m. -/
theorem convertTo24Hour_mapping_witness :
    convertTo24Hour (str "9:30") (str "a.m.") = str "09:30" ∧
    convertTo24Hour (str "12:00") (str "p.m.") = str "12:00" ∧
    convertTo24Hour (str "12:30") (str "a.m.") = str "00:30" ∧
    convertTo24Hour (str "2:45") (str "p.m.") = str "14:45" := by
  refine ⟨?_, by decide, by decide, by decide⟩
  have h := convertTo24Hour_mapping 9 30 (str "a.m.") (by decide) (by decide) (by decide)
    (Or.inl rfl)
  revert h
  decide

/-! ## C8 -/

/-- A concrete course with two present description fields (name and
section). -/
def c8Course : Course :=
  { student := none, code := str "TEST 101", name := str "Test Course",
    «section» := str "101", credits := [], instructor := [], format := [],
    delivery := [], status := [], startDate := [], endDate := [],
    meetings := [⟨str "2025-09-02", str "2025-12-04", [.MO], str "09:00", str "10:00", []⟩] }

/-- C8 (code bug): buildDescription joins the present fields with the
literal two-character sequence backslash-n, and buildICSContent then
passes the result through escapeText, which doubles the backslash — so
the emitted DESCRIPTION separates consecutive fields with the
three-character sequence backslash-backslash-n, not with the
two-character sequence backslash-n that escaping a newline-joined list
would produce. -/
theorem description_double_escaped :
    buildDescription c8Course = str "Course: TEST 101 - Test Course\\nSection: 101" ∧
    escapeText (buildDescription c8Course) =
      str "Course: TEST 101 - Test Course\\\\nSection: 101" ∧
    (str "DESCRIPTION:" ++ escapeText (buildDescription c8Course)) ∈
      generateICSLines 0 (str "20250101T000000Z") [c8Course] ∧
    escapeText (buildDescription c8Course) ≠
      escapeText (joinSep (str "\n")
        [str "Course: TEST 101 - Test Course", str "Section: 101"]) := by
  exact ⟨by rfl, by rfl, by decide, by decide⟩

/-! ## C5 -/

/-- The reading-break meeting-pattern cell from the test suite: two
blank-line-separated blocks with identical days/time and different
date ranges. -/
def twoBlockPattern : Str :=
  str "2026-01-05 - 2026-02-11 | Mon Wed | 12:30 p.m. - 2:00 p.m. | UBCV | Building | Floor: 3 | Room: 301" ++
  str "\n\n" ++
  str "2026-02-23 - 2026-04-08 | Mon Wed | 12:30 p.m. - 2:00 p.m. | UBCV | Building | Floor: 3 | Room: 301"

/-- C5 (corrected): parseMeetingPatterns is the filterMap of the
per-line parser over the non-blank lines (hence at most one Meeting per
line); a line yields a Meeting exactly when it splits on pipes into at
least three parts with a date-range match in the first part and a
time-range match in the third; and the two-block reading-break cell
yields exactly two Meetings carrying the two distinct date ranges. -/
theorem parseMeetingPatterns_line_structure :
    (∀ pattern, parseMeetingPatterns pattern =
      ((splitCh '\n' pattern).filter (fun l => !(trimStr l).isEmpty)).filterMap
        parseMeetingLine) ∧
    (∀ line, (parseMeetingLine line).isSome =
      (match (splitCh '|' line).map trimStr with
       | dateRange :: _ :: timeRange :: _ =>
         (scanFor tryDateRange dateRange).isSome && (scanFor tryTimeRange timeRange).isSome
       | _ => false)) ∧
    (parseMeetingPatterns twoBlockPattern).length = 2 ∧
    (parseMeetingPatterns twoBlockPattern).map (fun mt => (mt.startDate, mt.endDate)) =
      [(str "2026-01-05", str "2026-02-11"), (str "2026-02-23", str "2026-04-08")] := by
  refine ⟨?_, ?_, by rfl, by rfl⟩
  · intro pattern
    by_cases hp : pattern = []
    · subst hp; rfl
    · simp only [parseMeetingPatterns, if_neg hp, parseMeetingsLoop_eq_filterMap]
  · intro line
    unfold parseMeetingLine
    cases hsplit : (splitCh '|' line).map trimStr with
    | nil => rfl
    | cons dr rest =>
      cases rest with
      | nil => rfl
      | cons ds rest2 =>
        cases rest2 with
        | nil => rfl
        | cons tr rest3 =>
          rcases h1 : scanFor tryDateRange dr with _ | ⟨sd, ed⟩ <;>
            rcases h2 : scanFor tryTimeRange tr with _ | ⟨t1, p1, t2, p2⟩ <;>
            simp [h1, h2]

/-- C5 counterexample to the claim as stated: a line that contains both
a valid date-range match and a valid time-range match but has no pipe
structure yields no Meeting. -/
theorem parseMeetingPatterns_needs_pipes :
    (scanFor tryDateRange (str "2025-09-02 - 2025-12-04 3:30 p.m. - 5:00 p.m.")).isSome = true ∧
    (scanFor tryTimeRange (str "2025-09-02 - 2025-12-04 3:30 p.m. - 5:00 p.m.")).isSome = true ∧
    parseMeetingPatterns (str "2025-09-02 - 2025-12-04 3:30 p.m. - 5:00 p.m.") = [] := by
  exact ⟨by rfl, by rfl, by rfl⟩

/-! ## C4 -/

theorem isPrefixCL_append_space (w : Str) (hw : w ≠ []) (hsp : ' ' ∉ w) (a b : Str) :
    isPrefixCL w (a ++ ' ' :: b) = isPrefixCL w a := by
  induction w generalizing a with
  | nil => exact absurd rfl hw
  | cons c cs ih =>
    have hc : c ≠ ' ' := fun h => hsp (h ▸ List.mem_cons_self c cs)
    cases a with
    | nil =>
      simp only [List.nil_append, isPrefixCL]
      simp [hc]
    | cons x a2 =>
      simp only [List.cons_append, isPrefixCL]
      cases cs with
      | nil => rfl
      | cons c2 cs2 =>
        have h2 : ' ' ∉ c2 :: cs2 := fun h => hsp (List.mem_cons_of_mem c h)
        exact congrArg (fun t => decide (c = x) && t) (ih (by simp) h2 a2)

theorem containsSub_append_space (w : Str) (hw : w ≠ []) (hsp : ' ' ∉ w) (a b : Str) :
    containsSub (a ++ ' ' :: b) w = (containsSub a w || containsSub b w) := by
  induction a with
  | nil =>
    cases w with
    | nil => exact absurd rfl hw
    | cons c cs =>
      have hc : c ≠ ' ' := fun h => hsp (h ▸ List.mem_cons_self c cs)
      simp [containsSub, isPrefixCL, hc]
  | cons x a2 ih =>
    have h1 : (x :: a2) ++ ' ' :: b = x :: (a2 ++ ' ' :: b) := rfl
    rw [h1]
    show (isPrefixCL w (x :: a2 ++ ' ' :: b) || containsSub (a2 ++ ' ' :: b) w) = _
    rw [show x :: a2 ++ ' ' :: b = (x :: a2) ++ ' ' :: b from rfl,
      isPrefixCL_append_space w hw hsp (x :: a2) b, ih]
    show _ = (isPrefixCL w (x :: a2) || containsSub a2 w || containsSub b w)
    cases isPrefixCL w (x :: a2) <;> cases containsSub a2 w <;> cases containsSub b w <;> rfl

theorem containsSub_joinSep_space (w : Str) (hw : w ≠ []) (hsp : ' ' ∉ w) (L : List Str) :
    containsSub (joinSep (str " ") L) w = L.any (fun s => containsSub s w) := by
  induction L with
  | nil =>
    cases w with
    | nil => exact absurd rfl hw
    | cons c cs => rfl
  | cons s rest ih =>
    cases rest with
    | nil => simp [joinSep]
    | cons s2 r2 =>
      have h1 : joinSep (str " ") (s :: s2 :: r2) = s ++ ' ' :: joinSep (str " ") (s2 :: r2) := by
        simp [joinSep, str]
      rw [h1, containsSub_append_space w hw hsp, ih]
      simp

theorem lowerStr_joinSep_space (L : List Str) :
    lowerStr (joinSep (str " ") L) = joinSep (str " ") (L.map lowerStr) := by
  induction L with
  | nil => rfl
  | cons s rest ih =>
    cases rest with
    | nil => rfl
    | cons s2 r2 =>
      have h1 : joinSep (str " ") (s :: s2 :: r2) = s ++ ' ' :: joinSep (str " ") (s2 :: r2) := by
        simp [joinSep, str]
      have h2 : joinSep (str " ") (lowerStr s :: lowerStr s2 :: r2.map lowerStr) =
          lowerStr s ++ ' ' :: joinSep (str " ") (lowerStr s2 :: r2.map lowerStr) := by
        simp [joinSep, str]
      rw [List.map_cons, List.map_cons, h1, h2]
      rw [show lowerStr (s ++ ' ' :: joinSep (str " ") (s2 :: r2)) =
          lowerStr s ++ charLower ' ' :: lowerStr (joinSep (str " ") (s2 :: r2)) from by
        simp [lowerStr]]
      rw [show charLower ' ' = ' ' from rfl, ih, List.map_cons]

theorem any_filter_nonempty (p : Str → Bool) (hp : p [] = false) (L : List Str) :
    (L.filter (fun s => !s.isEmpty)).any p = L.any p := by
  induction L with
  | nil => rfl
  | cons s rest ih =>
    cases s with
    | nil => simp [List.filter_cons, List.any_cons, hp, ih]
    | cons c cs => simp [List.filter_cons, List.any_cons, ih]

theorem containsSub_headerString (L : List Str) (w : Str) (hw : w ≠ []) (hsp : ' ' ∉ w) :
    containsSub (lowerStr (joinSep (str " ") (L.filter (fun s => !s.isEmpty)))) w =
      containsSub (lowerStr (joinSep (str " ") L)) w := by
  rw [lowerStr_joinSep_space, lowerStr_joinSep_space,
    containsSub_joinSep_space w hw hsp, containsSub_joinSep_space w hw hsp,
    List.any_map, List.any_map]
  exact any_filter_nonempty _ (by cases w with | nil => exact absurd rfl hw | cons c cs => rfl) L

/-- C4 (corrected): validateHeaders returns true iff the header row has
at least five cells and every critical term occurs in the lower-cased
space-joined concatenation of the non-null header cells. -/
theorem validateHeaders_iff (headers : Row) :
    validateHeaders headers = true ↔
      5 ≤ headers.length ∧ claimHeaderCond headers = true := by
  unfold validateHeaders claimHeaderCond
  by_cases hlen : headers.length < 5
  · simp only [if_pos hlen]
    constructor
    · intro h
      exact absurd h (by simp)
    · intro h
      omega
  · have h5 : 5 ≤ headers.length := by omega
    simp only [if_neg hlen, criticalHeaders, List.all_cons, List.all_nil]
    have e1 := containsSub_headerString (headers.filterMap id) (lowerStr (str "Drop"))
      (by decide) (by decide)
    have e2 := containsSub_headerString (headers.filterMap id) (lowerStr (str "Credits"))
      (by decide) (by decide)
    have e3 := containsSub_headerString (headers.filterMap id) (lowerStr (str "Grading"))
      (by decide) (by decide)
    rw [e1, e2, e3]
    have w1 : lowerStr (str "Drop") = str "drop" := by decide
    have w2 : lowerStr (str "Credits") = str "credits" := by decide
    have w3 : lowerStr (str "Grading") = str "grading" := by decide
    rw [w1, w2, w3]
    simp [h5, Bool.and_assoc]

/-- C4 witness: a five-cell Workday header row satisfies both sides. -/
theorem validateHeaders_iff_witness :
    validateHeaders [some (str "Course Listing"), some (str "Drop"), some (str "Credits"),
      some (str "Grading Basis"), some (str "Section")] = true := by
  have h := (validateHeaders_iff [some (str "Course Listing"), some (str "Drop"),
    some (str "Credits"), some (str "Grading Basis"), some (str "Section")]).mpr
    ⟨by decide, by decide⟩
  exact h

/-- C4 counterexample to the claim as stated: a single-cell header row
containing every critical term satisfies the claimed substring condition
but validateHeaders rejects it (fewer than five cells). -/
theorem validateHeaders_short_row :
    claimHeaderCond [some (str "Drop Credits Grading")] = true ∧
    validateHeaders [some (str "Drop Credits Grading")] = false := by
  exact ⟨by decide, by decide⟩

/-! ## C1 -/

theorem countBeginVevent_append (a b : List Str) :
    countBeginVevent (a ++ b) = countBeginVevent a + countBeginVevent b := by
  induction a with
  | nil => simp [countBeginVevent]
  | cons s rest ih => simp [countBeginVevent, ih, Nat.add_assoc]

theorem cons_append_ne {c c2 : Char} {l l2 m : List Char} (h : c ≠ c2) :
    c :: l ++ m ≠ c2 :: l2 := by
  intro he
  injection he with h1 _
  exact h h1

theorem getFirstOccurrence_isSome (sd : Str) (days : List Day) (t : Str) :
    (getFirstOccurrence sd days t).isSome = (!sd.isEmpty && !days.isEmpty && !t.isEmpty) := by
  unfold getFirstOccurrence
  by_cases h1 : sd = [] <;> by_cases h2 : days = [] <;> by_cases h3 : t = [] <;>
    simp [h1, h2, h3, List.isEmpty_iff] <;> split <;> simp_all

theorem countBeginVevent_eventLines (tsStr : Str) (e : CalendarEvent) :
    countBeginVevent (eventLines tsStr e) =
      if e.dtstart.isSome && e.dtend.isSome then 1 else 0 := by
  rcases e with ⟨uid, summary, description, location, dtstart, dtend, rrule, categories, status⟩
  cases dtstart with
  | none => cases dtend <;> rfl
  | some ds =>
    cases dtend with
    | none => rfl
    | some de =>
      have n1 : str "UID:" ++ uid ≠ str "BEGIN:VEVENT" := cons_append_ne (by decide)
      have n2 : str "DTSTAMP:" ++ tsStr ≠ str "BEGIN:VEVENT" := cons_append_ne (by decide)
      have n3 : str "DTSTART;TZID=America/Vancouver:" ++ ds ≠ str "BEGIN:VEVENT" :=
        cons_append_ne (by decide)
      have n4 : str "DTEND;TZID=America/Vancouver:" ++ de ≠ str "BEGIN:VEVENT" :=
        cons_append_ne (by decide)
      have n5 : str "SUMMARY:" ++ escapeText summary ≠ str "BEGIN:VEVENT" :=
        cons_append_ne (by decide)
      have n6 : str "DESCRIPTION:" ++ escapeText description ≠ str "BEGIN:VEVENT" :=
        cons_append_ne (by decide)
      have n7 : str "LOCATION:" ++ escapeText location ≠ str "BEGIN:VEVENT" :=
        cons_append_ne (by decide)
      have n8 : str "CATEGORIES:" ++ categories ≠ str "BEGIN:VEVENT" :=
        cons_append_ne (by decide)
      have n9 : str "STATUS:" ++ jsOrDefault status (str "CONFIRMED") ≠ str "BEGIN:VEVENT" :=
        cons_append_ne (by decide)
      have n0 : str "END:VEVENT" ≠ str "BEGIN:VEVENT" := by decide
      cases rrule with
      | none =>
        by_cases hd : description = [] <;> by_cases hl : location = [] <;>
          by_cases hc : categories = [] <;>
          simp [eventLines, countBeginVevent_append, countBeginVevent,
            n0, n1, n2, n3, n4, n5, n6, n7, n8, n9, hd, hl, hc]
      | some r =>
        have n10 : str "RRULE:" ++ r ≠ str "BEGIN:VEVENT" := cons_append_ne (by decide)
        by_cases hd : description = [] <;> by_cases hl : location = [] <;>
          by_cases hc : categories = [] <;>
          simp [eventLines, countBeginVevent_append, countBeginVevent,
            n0, n1, n2, n3, n4, n5, n6, n7, n8, n9, n10, hd, hl, hc]

theorem count_createRecurringEvents (nowMs : Nat) (tsStr : Str) (c : Course) (m : Meeting) :
    countBeginVevent ((createRecurringEvents nowMs c m).flatMap (eventLines tsStr)) =
      if emitsEvent m then 1 else 0 := by
  unfold createRecurringEvents
  by_cases hd : m.days = []
  · simp [hd, emitsEvent, countBeginVevent]
  · simp only [if_neg hd, List.flatMap_cons, List.flatMap_nil, List.append_nil]
    rw [countBeginVevent_eventLines]
    simp only [courseEvent, getFirstOccurrence_isSome, emitsEvent]
    by_cases e1 : m.startDate.isEmpty <;> by_cases e2 : m.startTime.isEmpty <;>
      by_cases e3 : m.endTime.isEmpty <;>
      simp [e1, e2, e3, List.isEmpty_iff, hd]

theorem count_meetings (nowMs : Nat) (tsStr : Str) (c : Course) (ms : List Meeting) :
    countBeginVevent ((ms.flatMap (createRecurringEvents nowMs c)).flatMap (eventLines tsStr)) =
      ms.countP emitsEvent := by
  induction ms with
  | nil => rfl
  | cons m rest ih =>
    rw [List.flatMap_cons, List.flatMap_append, countBeginVevent_append,
      count_createRecurringEvents, ih, List.countP_cons]
    by_cases h : emitsEvent m <;> simp [h] <;> omega

theorem count_courses (nowMs : Nat) (tsStr : Str) (courses : List Course) :
    countBeginVevent ((allEvents nowMs courses).flatMap (eventLines tsStr)) =
      (courses.map (fun c => c.meetings.countP emitsEvent)).sum := by
  unfold allEvents
  induction courses with
  | nil => rfl
  | cons c rest ih =>
    rw [List.flatMap_cons, List.flatMap_append, countBeginVevent_append,
      count_meetings, ih, List.map_cons, List.sum_cons]

/-- C1 (amended): the number of `BEGIN:VEVENT` lines of the generated
document equals the number of Meetings (across all input Courses) with
a non-empty day set, a start date, a start time and an end time — an
end date is not required (a Meeting without one yields a VEVENT with no
RRULE). -/
theorem generateICS_vevent_count (nowMs : Nat) (tsStr : Str) (courses : List Course) :
    countBeginVevent (generateICSLines nowMs tsStr courses) =
      (courses.map (fun c => c.meetings.countP emitsEvent)).sum := by
  unfold generateICSLines buildICSLines
  rw [countBeginVevent_append, countBeginVevent_append]
  have hdr : countBeginVevent icsHeader = 0 := by decide
  have ftr : countBeginVevent [str "END:VCALENDAR"] = 0 := by decide
  rw [hdr, ftr, count_courses]
  omega

/-- A course whose single Meeting has a day set and times but no end
date. -/
def c1Course : Course :=
  { student := none, code := str "TEST 101", name := str "Test",
    «section» := [], credits := [], instructor := [], format := [],
    delivery := [], status := [], startDate := [], endDate := [],
    meetings := [⟨str "2025-09-01", [], [.MO], str "09:00", str "10:00", []⟩] }

/-- C1 counterexample to the claim as stated: a Meeting lacking an end
date still yields a VEVENT, so the document holds one `BEGIN:VEVENT`
although no Meeting has both a day set and an end date. -/
theorem vevent_without_end_date :
    countBeginVevent (generateICSLines 0 (str "20250101T000000Z") [c1Course]) = 1 ∧
    c1Course.meetings.countP claimCounted = 0 := by
  exact ⟨by rfl, by rfl⟩

/-! ## C7 -/

theorem uid_filter_map_meetings (nowMs : Nat) (c : Course) (ms : List Meeting) :
    ((ms.flatMap (createRecurringEvents nowMs c)).filter
        (fun e => e.dtstart.isSome && e.dtend.isSome)).map (fun e => e.uid) =
      ((ms.filter emitsEvent).map (uidPrefix c)).map
        (fun p => p ++ str "-" ++ natToStr nowMs ++ str "@workday-cal") := by
  induction ms with
  | nil => rfl
  | cons m rest ih =>
    rw [List.flatMap_cons, List.filter_append, List.map_append, ih, List.filter_cons]
    by_cases he : emitsEvent m
    · have hd : m.days ≠ [] := by
        intro h
        rw [emitsEvent, h] at he
        simp at he
      have hsurv : (getFirstOccurrence m.startDate m.days m.startTime).isSome &&
          (getFirstOccurrence m.startDate m.days m.endTime).isSome = true := by
        rw [getFirstOccurrence_isSome, getFirstOccurrence_isSome]
        simp only [emitsEvent, Bool.and_eq_true] at he
        obtain ⟨⟨⟨he1, he2⟩, he3⟩, he4⟩ := he
        simp [he1, he2, he3, he4]
      simp only [createRecurringEvents, courseEvent, if_neg hd, List.filter_cons,
        List.filter_nil]
      rw [if_pos (by simpa using hsurv)]
      simp only [if_pos he, List.map_cons, List.map_nil, List.nil_append]
      rw [generateUID]
      rfl
    · have hcase : (createRecurringEvents nowMs c m).filter
          (fun e => e.dtstart.isSome && e.dtend.isSome) = [] := by
        unfold createRecurringEvents
        by_cases hd : m.days = []
        · simp [hd]
        · simp only [if_neg hd, courseEvent, List.filter_cons, List.filter_nil]
          have : ((getFirstOccurrence m.startDate m.days m.startTime).isSome &&
              (getFirstOccurrence m.startDate m.days m.endTime).isSome) = false := by
            rw [getFirstOccurrence_isSome, getFirstOccurrence_isSome]
            rw [emitsEvent] at he
            rcases Bool.not_eq_true _ ▸ he with _
            by_cases e1 : m.startDate.isEmpty <;> by_cases e2 : m.startTime.isEmpty <;>
              by_cases e3 : m.endTime.isEmpty <;> simp_all
          simp [this]
      rw [hcase]
      simp [if_neg he]

theorem icsUIDs_eq (nowMs : Nat) (courses : List Course) :
    icsUIDs nowMs courses = (emittedPrefixes courses).map
      (fun p => p ++ str "-" ++ natToStr nowMs ++ str "@workday-cal") := by
  unfold icsUIDs emittedPrefixes allEvents
  induction courses with
  | nil => rfl
  | cons c rest ih =>
    rw [List.flatMap_cons, List.filter_append, List.map_append, ih,
      List.flatMap_cons, List.map_append]
    rw [uid_filter_map_meetings]

/-- C7 (amended): the UIDs of the emitted VEVENTs are pairwise distinct
provided the content-derived prefixes (course code without whitespace
plus the startDate/day-code signature) of the emitted events are
pairwise distinct; the shared `Date.now()` timestamp alone does not
separate events generated in the same millisecond. -/
theorem icsUIDs_pairwise_of_prefixes (nowMs : Nat) (courses : List Course)
    (h : (emittedPrefixes courses).Pairwise (· ≠ ·)) :
    (icsUIDs nowMs courses).Pairwise (· ≠ ·) := by
  rw [icsUIDs_eq]
  refine List.Pairwise.map _ (fun a b hab => ?_) h
  intro he
  apply hab
  have h1 : a ++ (str "-" ++ natToStr nowMs ++ str "@workday-cal") =
      b ++ (str "-" ++ natToStr nowMs ++ str "@workday-cal") := by
    simpa [List.append_assoc] using he
  exact List.append_cancel_right h1

/-- Meeting shared by the duplicated course of the C7 counterexample. -/
def c7Meeting : Meeting :=
  ⟨str "2025-09-02", str "2025-12-04", [.MO], str "09:00", str "10:00", []⟩

/-- Course duplicated in the C7 counterexample. -/
def c7Course : Course :=
  { student := none, code := str "TEST 101", name := str "Test",
    «section» := [], credits := [], instructor := [], format := [],
    delivery := [], status := [], startDate := [], endDate := [],
    meetings := [c7Meeting] }

/-- C7 counterexample to the claim as stated: duplicating a course
yields two emitted VEVENTs with identical UIDs when both events are
generated in the same millisecond. -/
theorem icsUIDs_duplicate :
    icsUIDs 1700000000000 [c7Course, c7Course] =
      [str "TEST101-20250902MO-1700000000000@workday-cal",
       str "TEST101-20250902MO-1700000000000@workday-cal"] ∧
    ¬ (icsUIDs 1700000000000 [c7Course, c7Course]).Pairwise (· ≠ ·) := by
  constructor
  · rfl
  · intro hp
    rw [(by rfl : icsUIDs 1700000000000 [c7Course, c7Course] =
      [str "TEST101-20250902MO-1700000000000@workday-cal",
       str "TEST101-20250902MO-1700000000000@workday-cal"])] at hp
    exact (List.pairwise_cons.mp hp).1 _ (List.mem_singleton_self _) rfl

/-- C7 witness: two courses with distinct codes give distinct prefixes,
hence distinct UIDs. -/
theorem icsUIDs_pairwise_witness :
    (emittedPrefixes [c7Course, { c7Course with code := str "TEST 102" }]).Pairwise (· ≠ ·) ∧
    (icsUIDs 1700000000000
      [c7Course, { c7Course with code := str "TEST 102" }]).Pairwise (· ≠ ·) := by
  refine ⟨?_, icsUIDs_pairwise_of_prefixes 1700000000000 _ ?_⟩ <;>
  · rw [(by rfl : emittedPrefixes [c7Course, { c7Course with code := str "TEST 102" }] =
      [str "TEST101-20250902MO", str "TEST102-20250902MO"])]
    refine List.pairwise_cons.mpr ⟨?_, List.pairwise_singleton _ _⟩
    intro b hb
    rw [List.mem_singleton.mp hb]
    decide

/-! ## C10 -/

/-- C10 (confirmed): for every emitted event, buildICSContent writes the
CATEGORIES value (the course format) verbatim — so any comma, semicolon
or backslash of the format string appears unescaped in that line —
while the SUMMARY value passes through escapeText. -/
theorem categories_written_verbatim (nowMs : Nat) (tsStr : Str) (courses : List Course)
    (c : Course) (m : Meeting) (hc : c ∈ courses) (hm : m ∈ c.meetings)
    (he : emitsEvent m = true) (hfmt : c.format ≠ []) :
    (str "CATEGORIES:" ++ c.format) ∈ generateICSLines nowMs tsStr courses ∧
    (str "SUMMARY:" ++ escapeText (c.code ++ str " - " ++ c.name)) ∈
      generateICSLines nowMs tsStr courses ∧
    ∀ ch ∈ c.format, ch ∈ str "CATEGORIES:" ++ c.format := by
  simp only [emitsEvent, Bool.and_eq_true] at he
  obtain ⟨⟨⟨he1, he2⟩, he3⟩, he4⟩ := he
  have hd : m.days ≠ [] := by
    intro h
    rw [h] at he1
    simp at he1
  have hds : (getFirstOccurrence m.startDate m.days m.startTime).isSome = true := by
    rw [getFirstOccurrence_isSome, he1, he2, he3]
    rfl
  have hde : (getFirstOccurrence m.startDate m.days m.endTime).isSome = true := by
    rw [getFirstOccurrence_isSome, he1, he2, he4]
    rfl
  obtain ⟨ds, hds2⟩ := Option.isSome_iff_exists.mp hds
  obtain ⟨de, hde2⟩ := Option.isSome_iff_exists.mp hde
  have hemem : courseEvent nowMs c m ∈ allEvents nowMs courses := by
    unfold allEvents
    refine List.mem_flatMap.mpr ⟨c, hc, ?_⟩
    refine List.mem_flatMap.mpr ⟨m, hm, ?_⟩
    unfold createRecurringEvents
    rw [if_neg hd]
    exact List.mem_singleton_self _
  have hline : ∀ s : Str, s ∈ eventLines tsStr (courseEvent nowMs c m) →
      s ∈ generateICSLines nowMs tsStr courses := by
    intro s hs
    unfold generateICSLines buildICSLines
    refine List.mem_append.mpr (Or.inl ?_)
    refine List.mem_append.mpr (Or.inr ?_)
    exact List.mem_flatMap.mpr ⟨_, hemem, hs⟩
  have hcat : jsOrDefault c.format (str "Lecture") = c.format := by
    unfold jsOrDefault
    rw [if_neg hfmt]
  refine ⟨?_, ?_, fun ch hch => List.mem_append_right _ hch⟩
  · refine hline _ ?_
    simp only [eventLines, courseEvent, hds2, hde2, hcat]
    simp [hfmt]
  · refine hline _ ?_
    simp only [eventLines, courseEvent, hds2, hde2]
    simp

/-- C10 witness: a concrete course whose format contains a comma; the
comma reaches the CATEGORIES line unescaped. -/
theorem categories_written_verbatim_witness :
    (str "CATEGORIES:" ++ str "Lecture, Lab") ∈
      generateICSLines 0 (str "20250101T000000Z")
        [{ c7Course with format := str "Lecture, Lab" }] := by
  exact (categories_written_verbatim 0 (str "20250101T000000Z")
    [{ c7Course with format := str "Lecture, Lab" }]
    { c7Course with format := str "Lecture, Lab" } c7Meeting
    (List.mem_singleton_self _) (List.mem_singleton_self _) (by decide) (by decide)).1

/-! ## C3 -/

theorem parseCourseRow_student_some (row headers : Row) (stu : StudentInfo) :
    (parseCourseRow row headers (some stu)).student = some stu := by
  unfold parseCourseRow
  cases cellAt row 0 with
  | none => rfl
  | some s =>
    by_cases h : (!s.isEmpty && containsSub s (str " - ") && containsSub s (str "(")) = true
    · simp [h]
    · simp [h]

theorem rowCourses_student (headers : Row) (stu : StudentInfo) (row : Row) :
    ∀ c ∈ rowCourses headers (some stu) row, c.student = some stu := by
  intro c hc
  unfold rowCourses at hc
  rcases h0 : cellAt row 1 with _ | s <;> simp only [h0] at hc
  · exact absurd hc (List.not_mem_nil c)
  · split at hc
    · split at hc
      · rw [List.mem_singleton.mp hc]
        exact parseCourseRow_student_some row headers stu
      · exact absurd hc (List.not_mem_nil c)
    · exact absurd hc (List.not_mem_nil c)

theorem processRows_student (headers : Row) (stu : StudentInfo) (rows : List Row)
    (h : ∀ r ∈ rows, labelStudent r = none) :
    ∀ c ∈ processRows headers (some stu) rows, c.student = some stu := by
  induction rows with
  | nil => intro c hc; exact absurd hc (List.not_mem_nil c)
  | cons row rest ih =>
    intro c hc
    have hlab : labelStudent row = none := h row (List.mem_cons_self row rest)
    have hrest : ∀ r ∈ rest, labelStudent r = none :=
      fun r hr => h r (List.mem_cons_of_mem row hr)
    unfold processRows at hc
    by_cases hrow : row = []
    · rw [if_pos hrow] at hc
      exact ih hrest c hc
    · rw [if_neg hrow] at hc
      have hupd : updateStudent (some stu) row = some stu := by
        unfold updateStudent
        rw [hlab]
      rw [hupd] at hc
      rcases List.mem_append.mp hc with hmem | hmem
      · exact rowCourses_student headers stu row c hmem
      · exact ih hrest c hmem

/-- C3 (amended): a data row whose first cell matches the student-label
regex establishes a new StudentInfo whose name and id come from the
label but whose term is the fixed string "Current Term"; that
StudentInfo is referenced by every Course built from that row and from
subsequent rows until a row with a new matching label. -/
theorem student_propagation (headers : Row) (s0 : Option StudentInfo) (r : Row)
    (rows : List Row) (stu : StudentInfo)
    (h1 : labelStudent r = some stu)
    (h2 : ∀ r2 ∈ rows, labelStudent r2 = none)
    (hr : r ≠ []) :
    stu.term = str "Current Term" ∧
    (∃ s n d, cellAt r 0 = some s ∧ studentScanAux [] s = some (n, d) ∧
      stu.name = trimStr n ∧ stu.id = d) ∧
    ∀ c ∈ processRows headers s0 (r :: rows), c.student = some stu := by
  have hdecomp : ∃ s n d, cellAt r 0 = some s ∧ studentScanAux [] s = some (n, d) ∧
      stu = ⟨trimStr n, d, str "Current Term"⟩ := by
    unfold labelStudent at h1
    rcases h0 : cellAt r 0 with _ | s <;> simp only [h0] at h1
    · exact absurd h1 (by simp)
    · split at h1
      · rcases hscan : studentScanAux [] s with _ | ⟨n, d⟩ <;> simp only [hscan] at h1
        · exact absurd h1 (by simp)
        · refine ⟨s, n, d, rfl, hscan, ?_⟩
          injection h1 with h1
          exact h1.symm
      · exact absurd h1 (by simp)
  obtain ⟨s, n, d, hs, hscan, hstu⟩ := hdecomp
  refine ⟨by rw [hstu], ⟨s, n, d, hs, hscan, by rw [hstu], by rw [hstu]⟩, ?_⟩
  intro c hc
  unfold processRows at hc
  rw [if_neg hr] at hc
  have hupd : updateStudent s0 r = some stu := by
    unfold updateStudent
    rw [h1]
  rw [hupd] at hc
  rcases List.mem_append.mp hc with hmem | hmem
  · exact rowCourses_student headers stu r c hmem
  · exact processRows_student headers stu rows h2 c hmem

/-- C3 witness: a concrete label row followed by a label-free course
row; both resulting Courses reference the same StudentInfo. -/
theorem student_propagation_witness :
    labelStudent [some (str "Test Student (12345678) - Fall 2025"),
        some (str "CPSC_V 110 - Computation")] =
      some ⟨str "Test Student", str "12345678", str "Current Term"⟩ ∧
    ∀ c ∈ processRows
        [some (str "a"), some (str "Drop"), some (str "Credits"),
          some (str "Grading Basis"), some (str "b")] none
        [[some (str "Test Student (12345678) - Fall 2025"),
            some (str "CPSC_V 110 - Computation")],
          [none, some (str "MATH_V 200 - Calculus III")]],
      c.student = some ⟨str "Test Student", str "12345678", str "Current Term"⟩ := by
  refine ⟨by rfl, ?_⟩
  exact (student_propagation
    [some (str "a"), some (str "Drop"), some (str "Credits"),
      some (str "Grading Basis"), some (str "b")] none
    [some (str "Test Student (12345678) - Fall 2025"), some (str "CPSC_V 110 - Computation")]
    [[none, some (str "MATH_V 200 - Calculus III")]]
    ⟨str "Test Student", str "12345678", str "Current Term"⟩
    (by rfl) (by decide) (by decide)).2.2

/-- The grid of the C3 counterexample: five filler rows, a header row,
and one data row whose first cell carries a full "name (id) - term"
label. -/
def c3Grid : List Row :=
  [[], [], [], [], [],
   [some (str "a"), some (str "Drop"), some (str "Credits"),
    some (str "Grading Basis"), some (str "b")],
   [some (str "Test Student (12345678) - Fall 2025"),
    some (str "CPSC_V 110 - Computation")]]

/-- C3 counterexample to the claim as stated: the StudentInfo built from
a combined "name (id) - term" label carries the fixed term
"Current Term", not the term component of the label. -/
theorem student_term_not_from_label :
    (parseExcel c3Grid).toOption.map (List.map (fun c => c.student)) =
      some [some ⟨str "Test Student", str "12345678", str "Current Term"⟩] ∧
    str "Current Term" ≠ str "Fall 2025" := by
  exact ⟨by rfl, by decide⟩

/-! ## C6 -/

theorem monthCascade_of_claim (sm em : Int) (t : Str)
    (h : claimTermCascade sm em = some t) :
    monthCascade (some sm) (some em) = some t := by
  unfold claimTermCascade at h
  unfold monthCascade optGE optLE
  split_ifs at h with h1 h2 h3 h4 h5 h6 <;>
    (try injection h with h) <;> subst h <;>
    simp only [decide_eq_true_eq, Bool.and_eq_true] <;>
    split_ifs <;> simp_all

/-- C6 (confirmed): when the student-level term text matches none of the
step-1 textual patterns at either call site and the course has both
dates with parseable month numbers, both determineTerm implementations
return the first matching label of the claimed month cascade. -/
theorem determineTerm_month_cascade (c : Course) (sm em : Int) (t : Str)
    (h1 : appStep1 c = none) (h2 : viewStep1 c = none)
    (h3 : c.startDate ≠ []) (h4 : c.endDate ≠ [])
    (h5 : monthOf c.startDate = some sm) (h6 : monthOf c.endDate = some em)
    (h7 : claimTermCascade sm em = some t) :
    appDetermineTerm c = t ∧ viewDetermineTerm c = t := by
  have hm : monthCascade (monthOf c.startDate) (monthOf c.endDate) = some t := by
    rw [h5, h6]
    exact monthCascade_of_claim sm em t h7
  have ha2 : appStep2 c = some t := by
    unfold appStep2
    rw [if_pos (by simp [h3, h4]), hm]
  have hv2 : viewStep2 c = some t := by
    unfold viewStep2
    rw [if_pos (by simp [h3, h4]), hm]
  constructor
  · unfold appDetermineTerm
    rw [h1, ha2]
  · unfold viewDetermineTerm
    rw [h2, hv2]

/-- A September-to-December course with no student term text. -/
def c6Course : Course :=
  { c7Course with startDate := str "2025-09-02", endDate := str "2025-12-04" }

/-- C6 witness: the September-to-December course classifies as
Winter Term 1 at both call sites. -/
theorem determineTerm_month_cascade_witness :
    appDetermineTerm c6Course = str "Winter Term 1" ∧
    viewDetermineTerm c6Course = str "Winter Term 1" := by
  exact determineTerm_month_cascade c6Course
    9 12 (str "Winter Term 1") (by rfl) (by rfl) (by decide) (by decide)
    (by rfl) (by rfl) (by rfl)

/-! ## C2 -/

theorem mem_insertSorted (x y : Nat) (l : List Nat) :
    y ∈ insertSorted x l ↔ y = x ∨ y ∈ l := by
  induction l with
  | nil => simp [insertSorted]
  | cons z zs ih =>
    unfold insertSorted
    by_cases h : x ≤ z
    · simp [h]
    · simp only [if_neg h, List.mem_cons, ih]
      tauto

theorem mem_sortNats (x : Nat) (l : List Nat) : x ∈ sortNats l ↔ x ∈ l := by
  induction l with
  | nil => simp [sortNats]
  | cons z zs ih => simp [sortNats, mem_insertSorted, ih]

theorem sortNats_ne_nil (l : List Nat) (h : l ≠ []) : sortNats l ≠ [] := by
  cases l with
  | nil => exact absurd rfl h
  | cons z zs =>
    unfold sortNats
    cases hs : sortNats zs with
    | nil => simp [insertSorted]
    | cons w ws =>
      unfold insertSorted
      by_cases hz : z ≤ w <;> simp [hz]

theorem foldl_min_le_init (l : List Int) (a : Int) : l.foldl min a ≤ a := by
  induction l generalizing a with
  | nil => exact le_refl a
  | cons x xs ih => exact le_trans (ih (min a x)) (min_le_left a x)

theorem foldl_min_le_mem (l : List Int) (a : Int) : ∀ x ∈ l, l.foldl min a ≤ x := by
  induction l generalizing a with
  | nil => intro x hx; exact absurd hx (List.not_mem_nil x)
  | cons y ys ih =>
    intro x hx
    rcases List.mem_cons.mp hx with rfl | hx2
    · exact le_trans (foldl_min_le_init ys (min a x)) (min_le_right a x)
    · exact ih (min a y) x hx2

theorem foldl_min_achieved (l : List Int) (a : Int) :
    l.foldl min a = a ∨ l.foldl min a ∈ l := by
  induction l generalizing a with
  | nil => exact Or.inl rfl
  | cons y ys ih =>
    rcases ih (min a y) with h | h
    · rcases min_choice a y with hm | hm
      · exact Or.inl (by rw [List.foldl_cons, h, hm])
      · refine Or.inr ?_
        rw [List.foldl_cons, h, hm]
        exact List.mem_cons_self y ys
    · exact Or.inr (List.mem_cons_of_mem y h)

theorem foldl_min_zero (l : List Int) (h : ∀ x ∈ l, 0 ≤ x) : l.foldl min 0 = 0 := by
  induction l with
  | nil => rfl
  | cons y ys ih =>
    rw [List.foldl_cons, min_eq_left (h y (List.mem_cons_self y ys))]
    exact ih (fun x hx => h x (List.mem_cons_of_mem y hx))

theorem dayDiff_nonneg (sd : Int) (t : Nat) : 0 ≤ dayDiff sd t := by
  unfold dayDiff
  omega

theorem dayDiff_lt (sd : Int) (t : Nat) : dayDiff sd t < 7 := by
  unfold dayDiff
  omega

theorem dayDiff_zero_of_eq (sd : Int) (t : Nat) (h : sd = (t : Int)) : dayDiff sd t = 0 := by
  unfold dayDiff
  omega

theorem firstOccLoop_eq_foldl (sd : Int) (ts : List Nat) (acc : Int) (hacc : 0 < acc) :
    firstOccLoop ts sd acc = (ts.map (dayDiff sd)).foldl min acc := by
  induction ts generalizing acc with
  | nil => rfl
  | cons t ts ih =>
    unfold firstOccLoop
    rw [List.map_cons, List.foldl_cons]
    by_cases h0 : dayDiff sd t = 0 ∨ sd = (t : Int)
    · have hd0 : dayDiff sd t = 0 := by
        rcases h0 with h | h
        · exact h
        · exact dayDiff_zero_of_eq sd t h
      rw [if_pos (by simp [h0]), hd0, min_eq_right (by omega)]
      refine (foldl_min_zero _ ?_).symm
      intro x hx
      rcases List.mem_map.mp hx with ⟨t2, _, rfl⟩
      exact dayDiff_nonneg sd t2
    · push_neg at h0
      have hdpos : 0 < dayDiff sd t := by
        have h1 := h0.1
        have h2 := dayDiff_nonneg sd t
        omega
      rw [if_neg (by simp [h0.1, h0.2])]
      have hacc0 : ¬(acc = 0) := by omega
      by_cases hlt : dayDiff sd t < acc
      · rw [if_pos (by simp [hlt]), ih _ hdpos, min_eq_right (by omega)]
      · rw [if_neg (by simp [hacc0, hlt]), ih _ hacc, min_eq_left (by omega)]

theorem firstOccLoop_top (ts : List Nat) (sd : Int) (hts : ts ≠ []) :
    0 ≤ firstOccLoop ts sd 0 ∧ firstOccLoop ts sd 0 < 7 ∧
    (∃ t ∈ ts, firstOccLoop ts sd 0 = dayDiff sd t) ∧
    (∀ t ∈ ts, firstOccLoop ts sd 0 ≤ dayDiff sd t) := by
  cases ts with
  | nil => exact absurd rfl hts
  | cons t ts =>
    by_cases h0 : dayDiff sd t = 0 ∨ sd = (t : Int)
    · have hd0 : dayDiff sd t = 0 := by
        rcases h0 with h | h
        · exact h
        · exact dayDiff_zero_of_eq sd t h
      have hL : firstOccLoop (t :: ts) sd 0 = 0 := by
        unfold firstOccLoop
        rw [if_pos (by simp [h0])]
      refine ⟨by omega, by omega, ⟨t, List.mem_cons_self t ts, by omega⟩, ?_⟩
      intro t2 _
      rw [hL]
      exact dayDiff_nonneg sd t2
    · push_neg at h0
      have hdpos : 0 < dayDiff sd t := by
        have h1 := h0.1
        have h2 := dayDiff_nonneg sd t
        omega
      have hL : firstOccLoop (t :: ts) sd 0 = firstOccLoop ts sd (dayDiff sd t) := by
        simp only [firstOccLoop]
        rw [if_neg (by simp [h0.1, h0.2]), if_pos (by simp)]
      rw [hL, firstOccLoop_eq_foldl sd ts _ hdpos]
      have hach := foldl_min_achieved (ts.map (dayDiff sd)) (dayDiff sd t)
      have hinit := foldl_min_le_init (ts.map (dayDiff sd)) (dayDiff sd t)
      have hnn : 0 ≤ (ts.map (dayDiff sd)).foldl min (dayDiff sd t) := by
        rcases hach with h | h
        · omega
        · rcases List.mem_map.mp h with ⟨t2, _, heq⟩
          have := dayDiff_nonneg sd t2
          omega
      have hlt7 : (ts.map (dayDiff sd)).foldl min (dayDiff sd t) < 7 := by
        have := dayDiff_lt sd t
        omega
      refine ⟨hnn, hlt7, ?_, ?_⟩
      · rcases hach with h | h
        · exact ⟨t, List.mem_cons_self t ts, h⟩
        · rcases List.mem_map.mp h with ⟨t2, ht2, heq⟩
          exact ⟨t2, List.mem_cons_of_mem t ht2, heq.symm⟩
      · intro t2 ht2
        rcases List.mem_cons.mp ht2 with rfl | ht3
        · exact hinit
        · exact foldl_min_le_mem _ _ _ (List.mem_map_of_mem _ ht3)

theorem dayNum_lt (dy : Day) : dayNum dy < 7 := by
  cases dy <;> decide

theorem jsMakeDate_eq (y m d : Int) (h1 : 1 ≤ m) (h2 : m ≤ 12) :
    jsMakeDate y (m - 1) d = civilToDays y m d := by
  have hfd : (m - 1).fdiv 12 = 0 := by interval_cases m <;> decide
  have hfm : (m - 1) % 12 = m - 1 := by omega
  unfold jsMakeDate
  rw [hfd, hfm, show y + 0 = y from by ring, show m - 1 + 1 = m from by ring]
  simp only [civilToDays]
  by_cases hm2 : m ≤ 2 <;> simp only [if_pos, if_neg, hm2, ite_true, ite_false] <;> ring

/-- C2 (confirmed): for a start date whose three components parse as
numbers with a real month, a non-empty weekday set and a time,
getFirstOccurrence returns the first on-or-after occurrence D formatted
`YYYYMMDD`, followed by `T`, the time with its colon removed, and `00`;
D is the smallest epoch day on or after the start date whose weekday
belongs to the day set (and lies within a week of it). -/
theorem getFirstOccurrence_first_on_or_after (sd : Str) (days : List Day) (time : Str)
    (y m d : Int)
    (hsd : sd ≠ []) (hdays : days ≠ []) (htime : time ≠ [])
    (hy : (((splitCh '-' sd).map jsNumber).get? 0).join = some y)
    (hm : (((splitCh '-' sd).map jsNumber).get? 1).join = some m)
    (hd : (((splitCh '-' sd).map jsNumber).get? 2).join = some d)
    (hm1 : 1 ≤ m) (hm2 : m ≤ 12) :
    ∃ D : Int,
      getFirstOccurrence sd days time =
        some (formatDate D ++ str "T" ++ replaceFirstCh ':' [] time ++ str "00") ∧
      firstOnOrAfter (civilToDays y m d) days D ∧
      D < civilToDays y m d + 7 := by
  have hbase := jsMakeDate_eq y m d hm1 hm2
  have htsne : days.map dayNum ≠ [] := by
    intro h
    exact hdays (List.map_eq_nil_iff.mp h)
  have hts : sortNats (days.map dayNum) ≠ [] := sortNats_ne_nil _ htsne
  obtain ⟨hr0, hr7, ⟨t0, ht0, hteq⟩, hlb⟩ :=
    firstOccLoop_top (sortNats (days.map dayNum)) (jsGetDay (civilToDays y m d)) hts
  refine ⟨civilToDays y m d +
    firstOccLoop (sortNats (days.map dayNum)) (jsGetDay (civilToDays y m d)) 0, ?_, ?_, ?_⟩
  · unfold getFirstOccurrence
    rw [if_neg (by simp [hsd, hdays, htime])]
    simp only [hy, hm, hd]
    rw [hbase]
  · refine ⟨by omega, ?_, ?_⟩
    · have ht0m : t0 ∈ days.map dayNum := (mem_sortNats _ _).mp ht0
      rcases List.mem_map.mp ht0m with ⟨dy, hdy, hdyeq⟩
      refine ⟨dy, hdy, ?_⟩
      have h4 : dayNum dy < 7 := dayNum_lt dy
      unfold dayDiff at hteq
      unfold jsGetDay at hteq ⊢
      omega
    · intro w hw1 hw2 dy hdy heq
      have hmem : dayNum dy ∈ sortNats (days.map dayNum) :=
        (mem_sortNats _ _).mpr (List.mem_map_of_mem dayNum hdy)
      have hlow := hlb (dayNum dy) hmem
      have h4 : dayNum dy < 7 := dayNum_lt dy
      unfold dayDiff at hlow
      unfold jsGetDay at hlow heq hw2 hr0 hr7
      omega
  · omega

/-- C2 witness: the documented instance — 2025-09-02 is a Tuesday, so
with day set TU/TH and time 14:00 the first occurrence is the start
date itself. -/
theorem getFirstOccurrence_witness :
    getFirstOccurrence (str "2025-09-02") [Day.TU, Day.TH] (str "14:00") =
      some (str "20250902T140000") ∧
    ∃ D : Int,
      getFirstOccurrence (str "2025-09-02") [Day.TU, Day.TH] (str "14:00") =
        some (formatDate D ++ str "T" ++ replaceFirstCh ':' [] (str "14:00") ++ str "00") ∧
      firstOnOrAfter (civilToDays 2025 9 2) [Day.TU, Day.TH] D ∧
      D < civilToDays 2025 9 2 + 7 := by
  refine ⟨by rfl, ?_⟩
  exact getFirstOccurrence_first_on_or_after (str "2025-09-02") [Day.TU, Day.TH]
    (str "14:00") 2025 9 2 (by decide) (by decide) (by decide)
    (by rfl) (by rfl) (by rfl) (by decide) (by decide)

end Workday
